import Mathlib

/-!
Shallow embedding of the GoGram terminal chat client (Go sources under
internal/chat, internal/config and the TUI coordinator), together with
proofs about its conversation store, sync poller, live session poller,
line layout engine and view coordinator.

Modelling conventions:
* Go strings are Lean `String`s; `len` is modelled by `String.length`
  (byte/char distinction abstracted, reasoning is at character level).
* `time.Time` values are unix seconds as `Int`; `time.Now()` at a given
  point of a tick is a single parameter `now`.
* Go maps are association lists; assignment conses a binding in front and
  lookup takes the most recent binding, which matches map semantics.
* User IDs are `Int` (the code compares `item.UserID` against
  `strconv.ParseInt(currentUserID, ...)`; we model the already-parsed
  integer).
* Internal short IDs are modelled as the `Nat` counter value; the code
  renders the counter with `fmt.Sprintf("%06d", n)`, which is injective,
  so nothing is lost by keeping the number itself.
-/

set_option maxRecDepth 8000

namespace GoGram

/-! ### Basic string helpers -/

/-- Model of Go `strings.Contains s sub`: `sub` occurs as a contiguous
substring of `s`. -/
def strContains (s sub : String) : Bool :=
  s.toList.tails.any (fun t => sub.toList.isPrefixOf t)

/-- Whitespace test used by `strings.Fields` and `strings.TrimSpace`
(ASCII portion of `unicode.IsSpace`). -/
def isSpaceChar (c : Char) : Bool :=
  c = ' ' || c = '\t' || c = '\n' || c = '\r'

/-- Model of Go `strings.ToLower` (character-wise lowercasing). -/
def toLowerStr (s : String) : String :=
  String.mk (s.toList.map Char.toLower)

/-- Model of Go `strings.TrimSpace`: drop whitespace from both ends. -/
def trimSpace (s : String) : String :=
  String.mk (((s.toList.dropWhile isSpaceChar).reverse.dropWhile isSpaceChar).reverse)

/-- Accumulator loop for `strings.Fields`. -/
def fieldsAux : List Char → List Char → List (List Char)
  | [], [] => []
  | [], acc => [acc.reverse]
  | c :: cs, acc =>
    if isSpaceChar c then
      (if acc = [] then fieldsAux cs [] else acc.reverse :: fieldsAux cs [])
    else fieldsAux cs (c :: acc)

/-- Model of Go `strings.Fields`: split around runs of whitespace. -/
def strFields (s : String) : List String :=
  (fieldsAux s.toList []).map (fun l => String.mk l)

/-! ### Data model (internal/chat/direct_messages.go and goinsta fields
the code reads) -/

/-- Backend user: the fields of `goinsta.User` the code reads. -/
structure User where
  ID : Int
  Username : String
  FullName : String
deriving Repr, DecidableEq

/-- Backend inbox item: the fields of a goinsta conversation item the
code reads (`ID`, `Text`, `UserID`, `Timestamp` in unix seconds — the
code converts with `time.Unix(item.Timestamp, 0)`). -/
structure Item where
  ID : String
  Text : String
  UserID : Int
  Timestamp : Int
deriving Repr, DecidableEq

/-- Backend conversation (`goinsta.Conversation` fields the code reads).
`Items` is ordered newest-first, as supplied by the backend. -/
structure Conversation where
  ID : String
  Title : String
  Users : List User
  IsGroup : Bool
  LastActivityAt : Int
  Items : List Item
deriving Repr, DecidableEq

/-- `Chat` from direct_messages.go. `InternalID` is the numeric counter
value (the code formats it as a zero-padded decimal string). -/
structure Chat where
  ID : String
  InternalID : Nat
  Title : String
  Users : List User
  LastMessage : String
  LastActivity : Int
  UnreadCount : Int
  IsGroup : Bool
deriving Repr, DecidableEq

/-- `Message` from direct_messages.go. The Go field `Type` is spelled
`MsgType` here because `Type` is a Lean keyword. -/
structure Message where
  ID : String
  Text : String
  Sender : String
  Timestamp : Int
  MsgType : String
deriving Repr, DecidableEq

/-- Mutable state of `DirectMessages`: the remote-ID to internal-ID map
and the `nextInternalID` counter. -/
structure DMState where
  internalIDMap : List (String × Nat)
  nextInternalID : Nat
deriving Repr, DecidableEq

/-- `NewDirectMessages` starts with an empty map and counter 100000. -/
def initialDMState : DMState := ⟨[], 100000⟩

/-- Lookup in the internal-ID map (Go `internalID, exists := m[conv.ID]`). -/
def lookupMap (m : List (String × Nat)) (k : String) : Option Nat :=
  (m.find? (fun p => p.1 == k)).map (fun p => p.2)

/-! ### Conversation store (direct_messages.go) -/

namespace DirectMessages

/-- Comparison of the `sort.Slice` call in `GetChatsWithLimit` (strict
`sortableConvs[i].LastActivityAt > sortableConvs[j].LastActivityAt` in
the code), as the non-strict total relation a model sort needs. -/
def activityGE (a b : Conversation) : Prop :=
  b.LastActivityAt ≤ a.LastActivityAt

instance : DecidableRel activityGE := fun _ _ => Int.decLe _ _

instance : IsTotal Conversation activityGE :=
  ⟨fun a b => le_total b.LastActivityAt a.LastActivityAt⟩

instance : IsTrans Conversation activityGE :=
  ⟨fun _ _ _ h1 h2 => le_trans h2 h1⟩

/-- The activity sort of `GetChatsWithLimit`: conversations ordered by
`LastActivityAt` descending (`sort.Slice` fixes no algorithm; insertion
sort is the model). -/
def sortByActivity (convs : List Conversation) : List Conversation :=
  convs.insertionSort activityGE

/-- The limit truncation of `GetChatsWithLimit`:
`if limit > 0 && limit < len(sortableConvs) { sortableConvs = sortableConvs[:limit] }`. -/
def truncateConvs (limit : Int) (l : List Conversation) : List Conversation :=
  if 0 < limit ∧ limit < (l.length : Int) then l.take limit.toNat else l

/-- Construction of one `Chat` record in the `GetChatsWithLimit` loop
(given the internal ID chosen for it). -/
def chatOfConv (internalID : Nat) (conv : Conversation) : Chat :=
  { ID := conv.ID
    InternalID := internalID
    Title := conv.Title
    Users := conv.Users
    LastMessage :=
      match conv.Items with
      | [] => ""
      | lastItem :: _ => if lastItem.Text ≠ "" then lastItem.Text else ""
    LastActivity := conv.LastActivityAt
    UnreadCount := 0
    IsGroup := conv.IsGroup }

/-- The per-conversation loop of `GetChatsWithLimit`: retrieve or assign
an internal ID for each conversation, in order. -/
def assignChats (st : DMState) : List Conversation → DMState × List Chat
  | [] => (st, [])
  | conv :: rest =>
    match lookupMap st.internalIDMap conv.ID with
    | some i =>
      let r := assignChats st rest
      (r.1, chatOfConv i conv :: r.2)
    | none =>
      let st1 : DMState := ⟨(conv.ID, st.nextInternalID) :: st.internalIDMap,
        st.nextInternalID + 1⟩
      let r := assignChats st1 rest
      (r.1, chatOfConv st.nextInternalID conv :: r.2)

/-- `GetChatsWithLimit`: sort by activity descending, truncate to the
limit, and assign internal IDs. The inbox sync is modelled by taking the
freshly synced conversation list as input. -/
def GetChatsWithLimit (st : DMState) (convs : List Conversation) (limit : Int) :
    DMState × List Chat :=
  assignChats st (truncateConvs limit (sortByActivity convs))

/-- `GetChats`: `GetChatsWithLimit(5)`. -/
def GetChats (st : DMState) (convs : List Conversation) : DMState × List Chat :=
  GetChatsWithLimit st convs 5

/-- `GetChatByInternalID`: list with limit 0 and find the chat whose
internal ID matches. -/
def GetChatByInternalID (st : DMState) (convs : List Conversation) (internalID : Nat) :
    DMState × Option Chat :=
  let (st1, chats) := GetChatsWithLimit st convs 0
  (st1, chats.find? (fun c => c.InternalID == internalID))

/-- Sender resolution of `GetChatHistory`: "You" for the current user,
else the full name (or username) of the matching conversation user,
falling back to "Unknown User". -/
def historySender (uid : Int) (conv : Conversation) (item : Item) : String :=
  if item.UserID == uid then "You"
  else
    let senderName :=
      match conv.Users.find? (fun u => u.ID == item.UserID) with
      | some u => if u.FullName ≠ "" then u.FullName else u.Username
      | none => ""
    if senderName = "" then "Unknown User" else senderName

/-- One `Message` built by the `GetChatHistory` loop. -/
def messageOfItem (uid : Int) (conv : Conversation) (item : Item) : Message :=
  { ID := item.ID
    Text := item.Text
    Sender := historySender uid conv item
    Timestamp := item.Timestamp
    MsgType := "text" }

/-- The item loop of `GetChatHistory`: iterate `i = 0 .. itemCount-1`
over `conversation.Items` (so in backend order, newest-first) where
`itemCount = limit` when `0 < limit < len(Items)`. -/
def historyOfConv (uid : Int) (conv : Conversation) (limit : Int) : List Message :=
  let itemCount :=
    if 0 < limit ∧ limit < (conv.Items.length : Int) then limit.toNat
    else conv.Items.length
  (conv.Items.take itemCount).map (messageOfItem uid conv)

/-- `GetChatHistory`: resolve the internal ID to a chat, find its
conversation, and map the items. The string-typed fallback of the code
(treating an unresolvable argument as a raw remote ID) is outside this
model, whose argument is an internal ID. -/
def GetChatHistory (st : DMState) (convs : List Conversation) (uid : Int)
    (chatID : Nat) (limit : Int) : DMState × Option (List Message) :=
  let (st1, chatOpt) := GetChatByInternalID st convs chatID
  match chatOpt with
  | none => (st1, none)
  | some chat =>
    match convs.find? (fun c => c.ID == chat.ID) with
    | none => (st1, none)
    | some conversation => (st1, some (historyOfConv uid conversation limit))

/-- Match predicate of `SearchChats` for one chat: case-insensitive
substring match on the title or any participant username (the query is
lowercased by the caller). -/
def chatMatches (query : String) (chat : Chat) : Bool :=
  strContains (toLowerStr chat.Title) query ||
    chat.Users.any (fun u => strContains (toLowerStr u.Username) query)

/-- `SearchChats`: list via `GetChats` (limit 5) and filter by title or
username substring match. -/
def SearchChats (st : DMState) (convs : List Conversation) (query : String) :
    DMState × List Chat :=
  let (st1, chats) := GetChats st convs
  (st1, chats.filter (chatMatches (toLowerStr query)))

/-- A run of listings within one process: fold `GetChatsWithLimit` over
a sequence of (synced conversation snapshot, limit) requests, tracking
the mutable internal-ID state. -/
def runListings (st : DMState) : List (List Conversation × Int) → DMState
  | [] => st
  | (convs, limit) :: rest => runListings (GetChatsWithLimit st convs limit).1 rest

/-- Well-formedness of the internal-ID state: remote IDs appear at most
once, internal IDs appear at most once, and every assigned internal ID
is below the counter. -/
def WF (st : DMState) : Prop :=
  (st.internalIDMap.map Prod.fst).Nodup ∧
  (st.internalIDMap.map Prod.snd).Nodup ∧
  ∀ p ∈ st.internalIDMap, p.2 < st.nextInternalID

end DirectMessages

/-! ### Sync Poller (NotificationManager, internal/chat notification code) -/

namespace NotificationManager

/-- Mutable state of `NotificationManager`: the per-conversation
bookkeeping maps (keyed by internal ID), the pause flag and the running
flag. -/
structure NMState where
  lastMessageIDs : List (Nat × String)
  lastCheckTimes : List (Nat × Int)
  isPaused : Bool
  isRunning : Bool
deriving Repr, DecidableEq

/-- Unix seconds of Go's zero `time.Time` (January 1, year 1 UTC): the
value a missing `lastCheckTimes` key denotes. -/
def goZeroTimeUnix : Int := -62135596800

/-- Go map read `nm.lastMessageIDs[chat.InternalID]` (zero value `""`
when absent). -/
def lookupID (m : List (Nat × String)) (k : Nat) : String :=
  (((m.find? (fun p => p.1 == k))).map (fun p => p.2)).getD ""

/-- Go map read `nm.lastCheckTimes[chat.InternalID]` (zero `time.Time`
when absent). -/
def lookupTime (m : List (Nat × Int)) (k : Nat) : Int :=
  (((m.find? (fun p => p.1 == k))).map (fun p => p.2)).getD goZeroTimeUnix

/-- Sender resolution in `checkChatForNewMessages`: full name (or
username) of the item author among the conversation users, falling back
to "Unknown User". -/
def resolveSender (conv : Conversation) (item : Item) : String :=
  let senderName :=
    match conv.Users.find? (fun u => u.ID == item.UserID) with
    | some u => if u.FullName ≠ "" then u.FullName else u.Username
    | none => ""
  if senderName = "" then "Unknown User" else senderName

/-- A notification event as produced by `displayNotification`. The field
`authorID` is a specification-level record of `latestItem.UserID`, the
author of the item the notification was emitted for (the printed event
itself only carries the resolved sender name). -/
structure SyncNotification where
  chatTitle : String
  chatInternalID : Nat
  sender : String
  preview : String
  timestamp : Int
  authorID : Int
deriving Repr, DecidableEq

/-- Preview truncation in `displayNotification`:
`if len(preview) > 50 { preview = preview[:47] + "..." }`. -/
def truncPreview (text : String) : String :=
  if text.length > 50 then text.take 47 ++ "..." else text

/-- Sender display fallback in `displayNotification`: when the resolved
sender is "Unknown User", search the chat users for one whose full name
or username equals the message sender and use their username. -/
def senderDisplayOf (chat : Chat) (msg : Message) : String :=
  if msg.Sender = "Unknown User" then
    match chat.Users.find? (fun u => u.FullName == msg.Sender || u.Username == msg.Sender) with
    | some u => u.Username
    | none => msg.Sender
  else msg.Sender

/-- `displayNotification chat msg`: the emitted notification event.
`authorID` is the ghost field described on `SyncNotification`. -/
def displayNotification (chat : Chat) (msg : Message) (authorID : Int) : SyncNotification :=
  { chatTitle := chat.Title
    chatInternalID := chat.InternalID
    sender := senderDisplayOf chat msg
    preview := truncPreview msg.Text
    timestamp := msg.Timestamp
    authorID := authorID }

/-- The `Message` built inside `checkChatForNewMessages` for the newest
item. -/
def notifMessage (conv : Conversation) (item : Item) : Message :=
  { ID := item.ID
    Text := item.Text
    Sender := resolveSender conv item
    Timestamp := item.Timestamp
    MsgType := "text" }

/-- `checkChatForNewMessages nm chat`: one per-conversation check of the
sync poller at clock `now`, over the freshly synced conversation list
`convs`. Returns the new bookkeeping state and the notification emitted,
if any. Early returns of the code (sync failure, conversation not found,
item fetch failure) leave the state unchanged; the same-ID and
self-author skips return before the tracking update, exactly as the code
does. -/
def checkChatForNewMessages (nm : NMState) (uid : Int) (convs : List Conversation)
    (chat : Chat) (now : Int) : NMState × Option SyncNotification :=
  match convs.find? (fun c => c.ID == chat.ID) with
  | none => (nm, none)
  | some conversation =>
    let lastMessageID := lookupID nm.lastMessageIDs chat.InternalID
    let lastCheckTime := lookupTime nm.lastCheckTimes chat.InternalID
    match conversation.Items with
    | [] =>
      -- no items: the notification block is skipped, but the final
      -- tracking update still runs (`lastMessageIDs` untouched because it
      -- is guarded by `len(conversation.Items) > 0`).
      ({ nm with lastCheckTimes := (chat.InternalID, now) :: nm.lastCheckTimes }, none)
    | latestItem :: _ =>
      if latestItem.ID == lastMessageID then (nm, none)
      else if latestItem.UserID == uid then (nm, none)
      else
        let notif :=
          if lastCheckTime < latestItem.Timestamp ∧ now - lastCheckTime < 30 then
            some (displayNotification chat (notifMessage conversation latestItem) latestItem.UserID)
          else none
        ({ nm with
            lastMessageIDs := (chat.InternalID, latestItem.ID) :: nm.lastMessageIDs
            lastCheckTimes := (chat.InternalID, now) :: nm.lastCheckTimes },
          notif)

/-- The per-chat loop of `checkForNewMessages`, collecting emitted
notifications in order. -/
def checkAllChats (uid : Int) (convs : List Conversation) (now : Int) :
    NMState → List Chat → NMState × List SyncNotification
  | nm, [] => (nm, [])
  | nm, chat :: rest =>
    let (nm1, notifOpt) := checkChatForNewMessages nm uid convs chat now
    let (nm2, notifs) := checkAllChats uid convs now nm1 rest
    (nm2, notifOpt.toList ++ notifs)

/-- `checkForNewMessages`: one sync-poller tick. Returns unchanged state
when the poller is stopped or paused; otherwise lists chats via
`GetChats` (which may assign internal IDs) and checks each. -/
def syncTick (uid : Int) (nm : NMState) (dm : DMState) (convs : List Conversation)
    (now : Int) : (NMState × DMState) × List SyncNotification :=
  if ¬ nm.isRunning then ((nm, dm), [])
  else if nm.isPaused then ((nm, dm), [])
  else
    let (dm1, chats) := DirectMessages.GetChats dm convs
    let (nm1, notifs) := checkAllChats uid convs now nm chats
    ((nm1, dm1), notifs)

/-- Events a sync-poller run can observe: timer ticks (with the backend
snapshot and clock at that tick), `Pause`, `Resume` and `Stop`. -/
inductive SyncEvent where
  | tick (convs : List Conversation) (now : Int)
  | pause
  | resume
  | stop
deriving Repr, DecidableEq

/-- Apply one event: `Pause`/`Resume` toggle the pause flag, `Stop`
clears the running flag, a tick runs `checkForNewMessages`. -/
def applyEvent (uid : Int) (s : NMState × DMState) (e : SyncEvent) :
    (NMState × DMState) × List SyncNotification :=
  match e with
  | .tick convs now => syncTick uid s.1 s.2 convs now
  | .pause => (({ s.1 with isPaused := true }, s.2), [])
  | .resume => (({ s.1 with isPaused := false }, s.2), [])
  | .stop => (({ s.1 with isRunning := false }, s.2), [])

/-- A sync-poller run: fold a sequence of events, collecting every
notification emitted along the way. -/
def runSync (uid : Int) (s : NMState × DMState) :
    List SyncEvent → (NMState × DMState) × List SyncNotification
  | [] => (s, [])
  | e :: es =>
    let (s1, notifs) := applyEvent uid s e
    let (s2, rest) := runSync uid s1 es
    (s2, notifs ++ rest)

end NotificationManager

/-! ### Live Session Poller (InteractiveChat) -/

namespace InteractiveChat

/-- One rendered message event (`displayMessage msg isNew`). -/
structure RenderEvent where
  msg : Message
  isNew : Bool
deriving Repr, DecidableEq

/-- `checkForNewMessages` of `InteractiveChat`: one live-session tick at
clock `now` over the synced conversation list, scoped to the
conversation `convID`. The state is the tracked pending-sent text
(`lastSentText`); the result is the new pending text and the rendered
events in display order (incoming first, then echo — at most one can
fire since they require opposite authorship). -/
def checkForNewMessages (lastSentText : String) (uid : Int)
    (convs : List Conversation) (convID : String) (now : Int) :
    String × List RenderEvent :=
  match convs.find? (fun c => c.ID == convID) with
  | none => (lastSentText, [])
  | some conversation =>
    match conversation.Items with
    | [] => (lastSentText, [])
    | latestItem :: _ =>
      let incoming : List RenderEvent :=
        if now - 10 < latestItem.Timestamp ∧ latestItem.UserID ≠ uid then
          [{ msg := { ID := latestItem.ID
                      Text := latestItem.Text
                      Sender := NotificationManager.resolveSender conversation latestItem
                      Timestamp := latestItem.Timestamp
                      MsgType := "text" }
             isNew := true }]
        else []
      if latestItem.UserID == uid ∧ now - 10 < latestItem.Timestamp ∧
          latestItem.Text == lastSentText ∧ lastSentText ≠ "" then
        ("", incoming ++
          [{ msg := { ID := latestItem.ID
                      Text := latestItem.Text
                      Sender := "You"
                      Timestamp := latestItem.Timestamp
                      MsgType := "text" }
             isNew := false }])
      else (lastSentText, incoming)

end InteractiveChat

/-! ### Line Layout Engine (chat_window.go) and View Coordinator
(chat_interface.go) -/

/-- `ChatMode` from types.go. -/
inductive ChatMode where
  | chat
  | command
  | reply
  | unsend
deriving Repr, DecidableEq

/-- `LineInfo` from types.go. -/
structure LineInfo where
  MessageIdx : Nat
  Text : String
  IsSelected : Bool
  ColorIdx : Nat
  SenderWidth : Nat
  SenderText : String
  IsDimmed : Bool
deriving Repr, DecidableEq

namespace ChatWindow

/-- `hashString` from chat_window.go:
`hash = (hash*31 + int(char)) % 3` over the runes of `s`. -/
def hashString (s : String) : Nat :=
  s.toList.foldl (fun h c => (h * 31 + c.toNat) % 3) 0

/-- The word-packing loop of `buildMessageLines`. State: the pending
words of the current line (`lineBuffer`), `currentWidth`, and the
`firstLine` flag; each emitted group carries the value `firstLine` had
when `flushLine` ran (the flag turns false in the else branch even when
the flush emitted nothing, exactly as in the code). -/
def wrapLoop (contentWidth : Int) :
    List String → List String → Int → Bool → List (List String × Bool)
  | [], lineBuffer, _, firstLine =>
    if lineBuffer.isEmpty then [] else [(lineBuffer, firstLine)]
  | w :: ws, lineBuffer, currentWidth, firstLine =>
    let spaceNeeded : Int := if lineBuffer.isEmpty then 0 else 1
    if currentWidth + (w.length : Int) + spaceNeeded ≤ contentWidth then
      wrapLoop contentWidth ws (lineBuffer ++ [w])
        (currentWidth + (w.length : Int) + spaceNeeded) firstLine
    else
      (if lineBuffer.isEmpty then [] else [(lineBuffer, firstLine)]) ++
        wrapLoop contentWidth ws [w] (w.length : Int) false

/-- Model of Go `strings.Join(lineBuffer, " ")`. -/
def joinSpace : List String → String
  | [] => ""
  | [w] => w
  | w :: ws => w ++ " " ++ joinSpace ws

/-- The layout lines of one message in `buildMessageLines` (width is the
hard-coded 80 of the code): wrapped lines followed by the blank
separator line. A first line carries the `"<sender>: "` label, a
continuation line a blank label of equal width. -/
def linesOfMessage (msgIdx : Nat) (msg : Message) (isSelected : Bool) : List LineInfo :=
  let senderText := msg.Sender ++ ": "
  let senderWidth := senderText.length
  let contentWidth : Int := 80 - (senderWidth : Int) - 1
  let colorIdx := hashString msg.Sender % 3 + 1
  let groups := wrapLoop contentWidth (strFields msg.Text) [] 0 true
  (groups.map (fun g =>
    { MessageIdx := msgIdx
      Text := joinSpace g.1
      IsSelected := isSelected
      ColorIdx := colorIdx
      SenderWidth := senderWidth
      SenderText :=
        if g.2 then senderText
        else " " ++ String.mk (List.replicate (senderWidth - 1) ' ')
      IsDimmed := false })) ++
    [{ MessageIdx := msgIdx
       Text := ""
       IsSelected := false
       ColorIdx := 0
       SenderWidth := 0
       SenderText := ""
       IsDimmed := false }]

/-- `buildMessageLines`: wrapped lines for all messages, oldest to
newest; a message's lines are selected only when it is the cursor target
and the window is in reply mode. -/
def buildMessageLines (messages : List Message) (selection : Nat) (mode : ChatMode) :
    List LineInfo :=
  (messages.enum.map (fun p =>
    linesOfMessage p.1 p.2 (p.1 == selection && mode == ChatMode.reply))).flatten

end ChatWindow

namespace ChatInterface

/-- A backend call dispatched by the view coordinator. -/
inductive BackendCall where
  | sendReply (chatInternalID : Nat) (message : String) (selectedMessageID : String)
  | sendMessage (chatInternalID : Nat) (message : String)
deriving Repr, DecidableEq

/-- `handleMessageSubmit` from chat_interface.go: given the mode, the
current chat, the reply-target selection and the submitted text, the
backend calls dispatched and the status-line updates written before the
call outcome is known (the post-outcome status depends on the callback
result and is not modelled). -/
def handleMessageSubmit (mode : ChatMode) (currentChat : Option Chat)
    (selectedMessageID : String) (message : String) :
    List BackendCall × List String :=
  match currentChat with
  | none => ([], ["No chat selected"])
  | some chat =>
    if trimSpace message = "" then ([], [])
    else if mode = ChatMode.reply ∧ selectedMessageID ≠ "" then
      ([.sendReply chat.InternalID message selectedMessageID], ["Sending reply..."])
    else
      ([.sendMessage chat.InternalID message], ["Sending..."])

end ChatInterface

/-! ### Supporting lemmas -/

namespace NotificationManager

theorem lookupID_cons_self (m : List (Nat × String)) (k : Nat) (v : String) :
    lookupID ((k, v) :: m) k = v := by
  simp [lookupID]

theorem lookupTime_cons_self (m : List (Nat × Int)) (k : Nat) (v : Int) :
    lookupTime ((k, v) :: m) k = v := by
  simp [lookupTime]

/-- Whenever a per-conversation check emits a notification, the emitted
event is `displayNotification` for the newest item of the found
conversation, and that item is not self-authored. -/
theorem checkChat_emit (nm : NMState) (uid : Int) (convs : List Conversation)
    (chat : Chat) (now : Int) (notif : SyncNotification)
    (h : (checkChatForNewMessages nm uid convs chat now).2 = some notif) :
    ∃ conv, convs.find? (fun c => c.ID == chat.ID) = some conv ∧
      ∃ latest rest, conv.Items = latest :: rest ∧
        latest.UserID ≠ uid ∧
        notif = displayNotification chat (notifMessage conv latest) latest.UserID := by
  unfold checkChatForNewMessages at h
  cases hfind : convs.find? (fun c => c.ID == chat.ID) with
  | none => rw [hfind] at h; simp at h
  | some conv =>
    rw [hfind] at h
    dsimp only at h
    refine ⟨conv, rfl, ?_⟩
    cases hitems : conv.Items with
    | nil => rw [hitems] at h; simp at h
    | cons latest rest =>
      rw [hitems] at h
      dsimp only at h
      by_cases h1 : (latest.ID == lookupID nm.lastMessageIDs chat.InternalID) = true
      · rw [if_pos h1] at h; simp at h
      · rw [if_neg h1] at h
        by_cases h2 : (latest.UserID == uid) = true
        · rw [if_pos h2] at h; simp at h
        · rw [if_neg h2] at h
          refine ⟨latest, rest, rfl, by simpa using h2, ?_⟩
          by_cases h3 : lookupTime nm.lastCheckTimes chat.InternalID < latest.Timestamp ∧
              now - lookupTime nm.lastCheckTimes chat.InternalID < 30
          · rw [if_pos h3] at h
            exact (Option.some_inj.mp h.symm)
          · rw [if_neg h3] at h; simp at h

end NotificationManager

/-! ### Claims -/

/-- Claim C4, counterexample. The claim states that submitting input in
Reply mode while no message is selected sends no message of any kind to
the backend. On the code, `handleMessageSubmit` in Reply mode with an
empty selection falls through to the regular-send branch: with a current
chat selected and the non-blank input "hi", the dispatched backend calls
are exactly one regular `onMessageSend`, which is not the empty list the
claim requires. -/
theorem replySubmitNoSelection_counterexample :
    (ChatInterface.handleMessageSubmit ChatMode.reply
        (some ⟨"c1", 100000, "T", [], "", 0, 0, false⟩) "" "hi").1
      = [ChatInterface.BackendCall.sendMessage 100000 "hi"] ∧
    ¬ (ChatInterface.handleMessageSubmit ChatMode.reply
        (some ⟨"c1", 100000, "T", [], "", 0, 0, false⟩) "" "hi").1 = [] := by
  decide

/-- Claim C4 as amended: submitting non-blank input in Reply mode while
no message is selected is not a no-op — the input is dispatched to the
backend as one regular (non-reply) message for the current chat, with the
"Sending..." status update, and no error is raised (the handler returns
normally; a backend failure only becomes status text). -/
theorem replySubmitNoSelection_sendsRegular (chat : Chat) (message : String)
    (h : trimSpace message ≠ "") :
    ChatInterface.handleMessageSubmit ChatMode.reply (some chat) "" message =
      ([ChatInterface.BackendCall.sendMessage chat.InternalID message], ["Sending..."]) := by
  simp [ChatInterface.handleMessageSubmit, h]

/-- Witness for the amended C4 theorem at a concrete input. -/
theorem replySubmitNoSelection_sendsRegular_witness :
    ChatInterface.handleMessageSubmit ChatMode.reply
        (some ⟨"c1", 100000, "T", [], "", 0, 0, false⟩) "" "hi" =
      ([ChatInterface.BackendCall.sendMessage 100000 "hi"], ["Sending..."]) :=
  replySubmitNoSelection_sendsRegular ⟨"c1", 100000, "T", [], "", 0, 0, false⟩ "hi" (by decide)

/-- Claim C9, counterexample. The claim states the preview is truncated
whenever the text exceeds 47 characters. The code truncates only above
50: with a newest item of exactly 48 characters and an otherwise
notification-worthy check, the emitted preview is the full 48-character
text, not the first 47 characters plus an ellipsis. -/
theorem syncPreview_counterexample :
    ((NotificationManager.checkChatForNewMessages
        ⟨[(100000, "m0")], [(100000, 100)], false, true⟩ 7
        [⟨"c1", "Chat1", [⟨5, "alice", "Alice A"⟩], false, 105,
          [⟨"m3", String.mk (List.replicate 48 'x'), 5, 105⟩]⟩]
        ⟨"c1", 100000, "Chat1", [⟨5, "alice", "Alice A"⟩], "", 105, 0, false⟩ 110).2.map
      (fun n => n.preview)) = some (String.mk (List.replicate 48 'x')) ∧
    (String.mk (List.replicate 48 'x')).length = 48 ∧
    String.mk (List.replicate 48 'x') ≠
      (String.mk (List.replicate 48 'x')).take 47 ++ "..." := by
  decide

/-- Claim C9 as amended: whenever a Sync Poller notification fires, its
preview equals the full newest-item text when that text is at most 50
characters long, and otherwise equals the first 47 characters followed by
an ellipsis. -/
theorem syncPreview_spec (nm : NotificationManager.NMState) (uid : Int)
    (convs : List Conversation) (chat : Chat) (now : Int)
    (conv : Conversation) (latest : Item) (rest : List Item)
    (notif : NotificationManager.SyncNotification)
    (hfind : convs.find? (fun c => c.ID == chat.ID) = some conv)
    (hitems : conv.Items = latest :: rest)
    (h : (NotificationManager.checkChatForNewMessages nm uid convs chat now).2 = some notif) :
    notif.preview = NotificationManager.truncPreview latest.Text ∧
    (latest.Text.length ≤ 50 → notif.preview = latest.Text) ∧
    (50 < latest.Text.length → notif.preview = latest.Text.take 47 ++ "...") := by
  obtain ⟨conv2, hfind2, latest2, rest2, hitems2, -, hnotif⟩ :=
    NotificationManager.checkChat_emit nm uid convs chat now notif h
  rw [hfind] at hfind2
  cases hfind2
  rw [hitems] at hitems2
  cases hitems2
  subst hnotif
  refine ⟨rfl, fun hle => ?_, fun hgt => ?_⟩
  · show NotificationManager.truncPreview latest.Text = latest.Text
    unfold NotificationManager.truncPreview
    rw [if_neg (by omega)]
  · show NotificationManager.truncPreview latest.Text = latest.Text.take 47 ++ "..."
    unfold NotificationManager.truncPreview
    rw [if_pos (by omega)]

/-- Witness for the amended C9 theorem at a concrete emitting check. -/
theorem syncPreview_spec_witness :
    (⟨"Chat1", 100000, "Alice A", "hello there", 105, 5⟩ :
        NotificationManager.SyncNotification).preview
      = NotificationManager.truncPreview "hello there" ∧
    ("hello there".length ≤ 50 →
      (⟨"Chat1", 100000, "Alice A", "hello there", 105, 5⟩ :
          NotificationManager.SyncNotification).preview = "hello there") ∧
    (50 < "hello there".length →
      (⟨"Chat1", 100000, "Alice A", "hello there", 105, 5⟩ :
          NotificationManager.SyncNotification).preview = "hello there".take 47 ++ "...") :=
  syncPreview_spec ⟨[(100000, "m0")], [(100000, 100)], false, true⟩ 7
    [⟨"c1", "Chat1", [⟨5, "alice", "Alice A"⟩], false, 105, [⟨"m3", "hello there", 5, 105⟩]⟩]
    ⟨"c1", 100000, "Chat1", [⟨5, "alice", "Alice A"⟩], "", 105, 0, false⟩ 110
    ⟨"c1", "Chat1", [⟨5, "alice", "Alice A"⟩], false, 105, [⟨"m3", "hello there", 5, 105⟩]⟩
    ⟨"m3", "hello there", 5, 105⟩ [] ⟨"Chat1", 100000, "Alice A", "hello there", 105, 5⟩
    (by decide) rfl (by decide)

/-- Claim C5: a Sync Poller per-conversation check where the newest
item's timestamp is 40 seconds before the check time and after the prior
check time emits no notification: freshness would require the elapsed
time since the prior check to be under 30 seconds, but it exceeds 40. -/
theorem syncStaleness_guard (nm : NotificationManager.NMState) (uid : Int)
    (convs : List Conversation) (chat : Chat) (now : Int)
    (conv : Conversation) (latest : Item) (rest : List Item)
    (hfind : convs.find? (fun c => c.ID == chat.ID) = some conv)
    (hitems : conv.Items = latest :: rest)
    (hts : latest.Timestamp = now - 40)
    (hafter : NotificationManager.lookupTime nm.lastCheckTimes chat.InternalID <
      latest.Timestamp) :
    (NotificationManager.checkChatForNewMessages nm uid convs chat now).2 = none := by
  unfold NotificationManager.checkChatForNewMessages
  rw [hfind]
  dsimp only
  rw [hitems]
  dsimp only
  by_cases h1 : (latest.ID == NotificationManager.lookupID nm.lastMessageIDs chat.InternalID) = true
  · rw [if_pos h1]
  · rw [if_neg h1]
    by_cases h2 : (latest.UserID == uid) = true
    · rw [if_pos h2]
    · rw [if_neg h2]
      rw [if_neg (by omega : ¬ (NotificationManager.lookupTime nm.lastCheckTimes chat.InternalID <
        latest.Timestamp ∧ now - NotificationManager.lookupTime nm.lastCheckTimes chat.InternalID < 30))]

/-- Witness for the C5 theorem at a concrete check: prior check at 50,
newest item at 60 = 100 − 40, check time 100. -/
theorem syncStaleness_guard_witness :
    (NotificationManager.checkChatForNewMessages
        ⟨[(100000, "a")], [(100000, 50)], false, true⟩ 7
        [⟨"c1", "T", [⟨5, "alice", "A"⟩], false, 60, [⟨"b", "x", 5, 60⟩]⟩]
        ⟨"c1", 100000, "T", [⟨5, "alice", "A"⟩], "", 60, 0, false⟩ 100).2 = none :=
  syncStaleness_guard ⟨[(100000, "a")], [(100000, 50)], false, true⟩ 7
    [⟨"c1", "T", [⟨5, "alice", "A"⟩], false, 60, [⟨"b", "x", 5, 60⟩]⟩]
    ⟨"c1", 100000, "T", [⟨5, "alice", "A"⟩], "", 60, 0, false⟩ 100
    ⟨"c1", "T", [⟨5, "alice", "A"⟩], false, 60, [⟨"b", "x", 5, 60⟩]⟩
    ⟨"b", "x", 5, 60⟩ [] (by decide) rfl (by decide) (by decide)

/-- Claim C2, counterexample. The claim states the advance of last-seen
ID and last-check time is unconditional, even when the newest item is
self-authored. On the code the self-author test returns before the
tracking update: with stored last-seen "a" at check time 100, a newest
self-authored item "b" at 105 and a check at 110, the bookkeeping is
left unchanged — the stored ID stays "a" (not "b") and the stored check
time stays 100 (not 110). -/
theorem syncAdvance_counterexample :
    (NotificationManager.checkChatForNewMessages
        ⟨[(100000, "a")], [(100000, 100)], false, true⟩ 7
        [⟨"c1", "T", [], false, 105, [⟨"b", "x", 7, 105⟩]⟩]
        ⟨"c1", 100000, "T", [], "", 105, 0, false⟩ 110).1 =
      ⟨[(100000, "a")], [(100000, 100)], false, true⟩ ∧
    ¬ NotificationManager.lookupID
      (NotificationManager.checkChatForNewMessages
        ⟨[(100000, "a")], [(100000, 100)], false, true⟩ 7
        [⟨"c1", "T", [], false, 105, [⟨"b", "x", 7, 105⟩]⟩]
        ⟨"c1", 100000, "T", [], "", 105, 0, false⟩ 110).1.lastMessageIDs 100000 = "b" ∧
    ¬ NotificationManager.lookupTime
      (NotificationManager.checkChatForNewMessages
        ⟨[(100000, "a")], [(100000, 100)], false, true⟩ 7
        [⟨"c1", "T", [], false, 105, [⟨"b", "x", 7, 105⟩]⟩]
        ⟨"c1", 100000, "T", [], "", 105, 0, false⟩ 110).1.lastCheckTimes 100000 = 110 := by
  decide

/-- Claim C2 as amended: a per-conversation check advances the stored
last-seen ID to the newest item's ID and the last-check time to the
check time exactly when it reaches the freshness evaluation — that is,
when the newest item's ID differs from the stored last-seen ID and the
item is not self-authored (whether or not a notification then fires); a
check that skips because the newest item ID equals the stored ID, or
because the newest item is self-authored, returns early and leaves the
bookkeeping unchanged. -/
theorem syncAdvance_characterization (nm : NotificationManager.NMState) (uid : Int)
    (convs : List Conversation) (chat : Chat) (now : Int)
    (conv : Conversation) (latest : Item) (rest : List Item)
    (hfind : convs.find? (fun c => c.ID == chat.ID) = some conv)
    (hitems : conv.Items = latest :: rest) :
    (latest.ID ≠ NotificationManager.lookupID nm.lastMessageIDs chat.InternalID →
      latest.UserID ≠ uid →
      NotificationManager.lookupID
          (NotificationManager.checkChatForNewMessages nm uid convs chat now).1.lastMessageIDs
          chat.InternalID = latest.ID ∧
      NotificationManager.lookupTime
          (NotificationManager.checkChatForNewMessages nm uid convs chat now).1.lastCheckTimes
          chat.InternalID = now) ∧
    (latest.ID = NotificationManager.lookupID nm.lastMessageIDs chat.InternalID →
      (NotificationManager.checkChatForNewMessages nm uid convs chat now).1 = nm) ∧
    (latest.ID ≠ NotificationManager.lookupID nm.lastMessageIDs chat.InternalID →
      latest.UserID = uid →
      (NotificationManager.checkChatForNewMessages nm uid convs chat now).1 = nm) := by
  unfold NotificationManager.checkChatForNewMessages
  rw [hfind]
  dsimp only
  rw [hitems]
  dsimp only
  refine ⟨fun h1 h2 => ?_, fun h1 => ?_, fun h1 h2 => ?_⟩
  · rw [if_neg (by simpa using h1), if_neg (by simpa using h2)]
    exact ⟨NotificationManager.lookupID_cons_self _ _ _,
      NotificationManager.lookupTime_cons_self _ _ _⟩
  · rw [if_pos (by simpa using h1)]
  · rw [if_neg (by simpa using h1), if_pos (by simpa using h2)]

/-- Witness for the amended C2 theorem: a fresh non-self item advances
both maps; the concrete check stores ID "b" and time 110. -/
theorem syncAdvance_characterization_witness :
    NotificationManager.lookupID
        (NotificationManager.checkChatForNewMessages
          ⟨[(100000, "a")], [(100000, 100)], false, true⟩ 7
          [⟨"c1", "T", [], false, 105, [⟨"b", "x", 5, 105⟩]⟩]
          ⟨"c1", 100000, "T", [], "", 105, 0, false⟩ 110).1.lastMessageIDs 100000 = "b" ∧
    NotificationManager.lookupTime
        (NotificationManager.checkChatForNewMessages
          ⟨[(100000, "a")], [(100000, 100)], false, true⟩ 7
          [⟨"c1", "T", [], false, 105, [⟨"b", "x", 5, 105⟩]⟩]
          ⟨"c1", 100000, "T", [], "", 105, 0, false⟩ 110).1.lastCheckTimes 100000 = 110 :=
  (syncAdvance_characterization ⟨[(100000, "a")], [(100000, 100)], false, true⟩ 7
    [⟨"c1", "T", [], false, 105, [⟨"b", "x", 5, 105⟩]⟩]
    ⟨"c1", 100000, "T", [], "", 105, 0, false⟩ 110
    ⟨"c1", "T", [], false, 105, [⟨"b", "x", 5, 105⟩]⟩
    ⟨"b", "x", 5, 105⟩ [] (by decide) rfl).1 (by decide) (by decide)

/-- Claim C6: on a live-session tick whose newest item is self-authored,
within the 10-second recency window and exactly equal to the non-empty
pending-sent text, the tick renders exactly one confirmed-sent event
(sender "You", not marked new) and clears the pending marker; a
following tick from the cleared state over the same newest item, at any
clock, renders nothing and keeps the marker clear. -/
theorem echoConfirm_and_clear (pending : String) (uid : Int)
    (convs : List Conversation) (convID : String) (now : Int)
    (conv : Conversation) (latest : Item) (rest : List Item)
    (hfind : convs.find? (fun c => c.ID == convID) = some conv)
    (hitems : conv.Items = latest :: rest)
    (hself : latest.UserID = uid)
    (hfresh : now - 10 < latest.Timestamp)
    (htext : latest.Text = pending)
    (hpend : pending ≠ "") :
    InteractiveChat.checkForNewMessages pending uid convs convID now =
      ("", [⟨⟨latest.ID, latest.Text, "You", latest.Timestamp, "text"⟩, false⟩]) ∧
    ∀ now2 : Int, InteractiveChat.checkForNewMessages "" uid convs convID now2 = ("", []) := by
  constructor
  · unfold InteractiveChat.checkForNewMessages
    rw [hfind]
    dsimp only
    rw [hitems]
    dsimp only
    rw [if_pos ⟨by simpa using hself, hfresh, by simpa using htext, hpend⟩]
    rw [if_neg (show ¬ (now - 10 < latest.Timestamp ∧ latest.UserID ≠ uid) from
      fun hc => hc.2 hself)]
    rfl
  · intro now2
    unfold InteractiveChat.checkForNewMessages
    rw [hfind]
    dsimp only
    rw [hitems]
    dsimp only
    rw [if_neg (show ¬ ((latest.UserID == uid) = true ∧ now2 - 10 < latest.Timestamp ∧
        (latest.Text == "") = true ∧ "" ≠ "") from fun hc => hc.2.2.2 rfl)]
    rw [if_neg (show ¬ (now2 - 10 < latest.Timestamp ∧ latest.UserID ≠ uid) from
      fun hc => hc.2 hself)]

/-- Witness for the C6 theorem at a concrete echo tick. -/
theorem echoConfirm_and_clear_witness :
    InteractiveChat.checkForNewMessages "yo" 7
        [⟨"c1", "T", [⟨5, "alice", "A"⟩], false, 95, [⟨"m9", "yo", 7, 95⟩]⟩] "c1" 100 =
      ("", [⟨⟨"m9", "yo", "You", 95, "text"⟩, false⟩]) ∧
    ∀ now2 : Int, InteractiveChat.checkForNewMessages "" 7
        [⟨"c1", "T", [⟨5, "alice", "A"⟩], false, 95, [⟨"m9", "yo", 7, 95⟩]⟩] "c1" now2 = ("", []) :=
  echoConfirm_and_clear "yo" 7
    [⟨"c1", "T", [⟨5, "alice", "A"⟩], false, 95, [⟨"m9", "yo", 7, 95⟩]⟩] "c1" 100
    ⟨"c1", "T", [⟨5, "alice", "A"⟩], false, 95, [⟨"m9", "yo", 7, 95⟩]⟩
    ⟨"m9", "yo", 7, 95⟩ [] (by decide) rfl rfl (by decide) rfl (by decide)

/-- Claim C1, counterexample. The claim states history is returned
oldest-first. `GetChatHistory` iterates `conversation.Items` from index
0 upward, i.e. in the backend's newest-first order, without reversing:
for a conversation whose items are (newest-first) timestamps 100 then
50, the returned messages carry timestamps [100, 50], which is not
non-decreasing. (The CLI display layer reverses the slice itself when
printing, confirming the function's own order is newest-first.) -/
theorem historyOrder_counterexample :
    ((DirectMessages.GetChatHistory initialDMState
        [⟨"c1", "Chat1", [⟨5, "alice", "Alice A"⟩], false, 100,
          [⟨"m2", "hello there", 5, 100⟩, ⟨"m1", "first", 7, 50⟩]⟩] 7 100000 2).2.map
      (fun l => l.map (fun m => m.Timestamp))) = some [100, 50] ∧
    ¬ List.Pairwise (fun a b : Int => a ≤ b) [100, 50] := by
  decide

/-- Claim C1 as amended: for every conversation and positive limit,
given a backend that supplies the conversation's items newest-first, the
history operation returns the messages still ordered newest-first
(timestamps non-increasing, the backend's order preserved) and bounded
by the limit. -/
theorem history_newest_first (st : DMState) (convs : List Conversation) (uid : Int)
    (chatID : Nat) (limit : Int) (msgs : List Message)
    (hsorted : ∀ conv ∈ convs, conv.Items.Pairwise (fun a b => b.Timestamp ≤ a.Timestamp))
    (h : (DirectMessages.GetChatHistory st convs uid chatID limit).2 = some msgs) :
    msgs.Pairwise (fun a b => b.Timestamp ≤ a.Timestamp) ∧
    (0 < limit → (msgs.length : Int) ≤ limit) := by
  unfold DirectMessages.GetChatHistory at h
  rcases hGB : DirectMessages.GetChatByInternalID st convs chatID with ⟨st1, chatOpt⟩
  rw [hGB] at h
  dsimp only at h
  cases chatOpt with
  | none => simp at h
  | some chat =>
    dsimp only at h
    cases hfind : convs.find? (fun c => c.ID == chat.ID) with
    | none => rw [hfind] at h; simp at h
    | some conversation =>
      rw [hfind] at h
      dsimp only at h
      have hmsgs : msgs = DirectMessages.historyOfConv uid conversation limit :=
        (Option.some_inj.mp h).symm
      subst hmsgs
      have hmem : conversation ∈ convs := List.mem_of_find?_eq_some hfind
      have hs := hsorted conversation hmem
      constructor
      · unfold DirectMessages.historyOfConv
        rw [List.pairwise_map]
        exact List.Pairwise.sublist (List.take_sublist _ _) hs
      · intro hlim
        simp only [DirectMessages.historyOfConv, List.length_map, List.length_take]
        split_ifs with hcond <;> omega

/-- Witness for the amended C1 theorem at a concrete two-item history. -/
theorem history_newest_first_witness :
    List.Pairwise (fun a b : Message => b.Timestamp ≤ a.Timestamp)
      [⟨"m2", "hello there", "Alice A", 100, "text"⟩, ⟨"m1", "first", "You", 50, "text"⟩] ∧
    ((0 : Int) < 2 →
      (([⟨"m2", "hello there", "Alice A", 100, "text"⟩,
         ⟨"m1", "first", "You", 50, "text"⟩] : List Message).length : Int) ≤ 2) :=
  history_newest_first initialDMState
    [⟨"c1", "Chat1", [⟨5, "alice", "Alice A"⟩], false, 100,
      [⟨"m2", "hello there", 5, 100⟩, ⟨"m1", "first", 7, 50⟩]⟩] 7 100000 2
    [⟨"m2", "hello there", "Alice A", 100, "text"⟩, ⟨"m1", "first", "You", 50, "text"⟩]
    (by decide) (by decide)

namespace NotificationManager

/-- A single check never emits a notification for a self-authored item. -/
theorem checkChat_author (nm : NMState) (uid : Int) (convs : List Conversation)
    (chat : Chat) (now : Int) (notif : SyncNotification)
    (h : (checkChatForNewMessages nm uid convs chat now).2 = some notif) :
    notif.authorID ≠ uid := by
  obtain ⟨conv, -, latest, rest, -, hne, hnotif⟩ :=
    checkChat_emit nm uid convs chat now notif h
  subst hnotif
  exact hne

/-- The per-chat loop never collects a self-authored notification. -/
theorem checkAll_author (uid : Int) (convs : List Conversation) (now : Int) :
    ∀ (chats : List Chat) (nm : NMState) (notif : SyncNotification),
      notif ∈ (checkAllChats uid convs now nm chats).2 → notif.authorID ≠ uid := by
  intro chats
  induction chats with
  | nil => intro nm notif h; simp [checkAllChats] at h
  | cons chat rest ih =>
    intro nm notif h
    unfold checkAllChats at h
    rcases hc : checkChatForNewMessages nm uid convs chat now with ⟨nm1, notifOpt⟩
    rw [hc] at h
    dsimp only at h
    rcases hc2 : checkAllChats uid convs now nm1 rest with ⟨nm2, notifs⟩
    rw [hc2] at h
    dsimp only at h
    rcases List.mem_append.mp h with h1 | h2
    · have hopt : notifOpt = some notif := by
        cases notifOpt with
        | none => simp at h1
        | some v => simp at h1; rw [h1]
      exact checkChat_author nm uid convs chat now notif (by rw [hc]; exact hopt)
    · exact ih nm1 notif (by rw [hc2]; exact h2)

/-- One sync tick never emits a self-authored notification. -/
theorem syncTick_author (uid : Int) (nm : NMState) (dm : DMState)
    (convs : List Conversation) (now : Int) (notif : SyncNotification)
    (h : notif ∈ (syncTick uid nm dm convs now).2) : notif.authorID ≠ uid := by
  unfold syncTick at h
  by_cases hr : ¬ nm.isRunning
  · rw [if_pos hr] at h; simp at h
  · rw [if_neg hr] at h
    by_cases hp : nm.isPaused
    · rw [if_pos hp] at h; simp at h
    · rw [if_neg hp] at h
      rcases hg : DirectMessages.GetChats dm convs with ⟨dm1, chats⟩
      rw [hg] at h
      dsimp only at h
      rcases hc : checkAllChats uid convs now nm chats with ⟨nm1, notifs⟩
      rw [hc] at h
      dsimp only at h
      exact checkAll_author uid convs now chats nm notif (by rw [hc]; exact h)

end NotificationManager

/-- Claim C3: over every event sequence (ticks with arbitrary backend
snapshots and clocks, interleaved with Pause, Resume and Stop), the Sync
Poller never emits a notification for an item authored by the current
user: every collected notification's source-item author differs from
`uid`. -/
theorem sync_no_self_notification (uid : Int)
    (s : NotificationManager.NMState × DMState)
    (events : List NotificationManager.SyncEvent)
    (notif : NotificationManager.SyncNotification)
    (h : notif ∈ (NotificationManager.runSync uid s events).2) :
    notif.authorID ≠ uid := by
  induction events generalizing s with
  | nil => simp [NotificationManager.runSync] at h
  | cons e es ih =>
    unfold NotificationManager.runSync at h
    rcases ha : NotificationManager.applyEvent uid s e with ⟨s1, notifs⟩
    rw [ha] at h
    dsimp only at h
    rcases hr : NotificationManager.runSync uid s1 es with ⟨s2, rest⟩
    rw [hr] at h
    dsimp only at h
    rcases List.mem_append.mp h with h1 | h2
    · cases e with
      | tick convs now =>
        refine NotificationManager.syncTick_author uid s.1 s.2 convs now notif ?_
        have : NotificationManager.applyEvent uid s (.tick convs now) =
            NotificationManager.syncTick uid s.1 s.2 convs now := rfl
        rw [this.symm, ha]
        exact h1
      | pause =>
        have h0 : notifs = [] := (congrArg Prod.snd ha).symm
        rw [h0] at h1; simp at h1
      | resume =>
        have h0 : notifs = [] := (congrArg Prod.snd ha).symm
        rw [h0] at h1; simp at h1
      | stop =>
        have h0 : notifs = [] := (congrArg Prod.snd ha).symm
        rw [h0] at h1; simp at h1
    · exact ih s1 (by rw [hr]; exact h2)

/-- Witness for the C3 theorem at a concrete run with one tick that does
emit a (non-self) notification. -/
theorem sync_no_self_notification_witness :
    (⟨"Chat1", 100000, "Alice A", "hello there", 105, 5⟩ :
      NotificationManager.SyncNotification).authorID ≠ 7 :=
  sync_no_self_notification 7
    (⟨[(100000, "m0")], [(100000, 100)], false, true⟩, initialDMState)
    [.tick [⟨"c1", "Chat1", [⟨5, "alice", "Alice A"⟩], false, 105,
      [⟨"m3", "hello there", 5, 105⟩]⟩] 110]
    ⟨"Chat1", 100000, "Alice A", "hello there", 105, 5⟩
    (by decide)

namespace ChatWindow

/-- The word-packing loop emits every word exactly once, in order: the
concatenation of the emitted groups is the pending buffer followed by
the remaining words. -/
theorem wrapLoop_flatten (cw : Int) :
    ∀ (ws buf : List String) (cur : Int) (fl : Bool),
      ((wrapLoop cw ws buf cur fl).map Prod.fst).flatten = buf ++ ws := by
  intro ws
  induction ws with
  | nil =>
    intro buf cur fl
    unfold wrapLoop
    cases buf <;> simp
  | cons w ws ih =>
    intro buf cur fl
    unfold wrapLoop
    dsimp only
    by_cases hfit : cur + (w.length : Int) + (if buf.isEmpty then (0 : Int) else 1) ≤ cw
    · rw [if_pos hfit, ih]
      simp
    · rw [if_neg hfit, List.map_append, List.flatten_append, ih]
      cases buf <;> simp

/-- The word-packing loop never emits an empty line. -/
theorem wrapLoop_ne_nil (cw : Int) :
    ∀ (ws buf : List String) (cur : Int) (fl : Bool) (g : List String) (flb : Bool),
      (g, flb) ∈ wrapLoop cw ws buf cur fl → g ≠ [] := by
  intro ws
  induction ws with
  | nil =>
    intro buf cur fl g flb h
    unfold wrapLoop at h
    cases buf with
    | nil => simp at h
    | cons b bs =>
      simp at h
      rw [h.1]
      simp
  | cons w ws ih =>
    intro buf cur fl g flb h
    unfold wrapLoop at h
    dsimp only at h
    by_cases hfit : cur + (w.length : Int) + (if buf.isEmpty then (0 : Int) else 1) ≤ cw
    · rw [if_pos hfit] at h
      exact ih _ _ _ g flb h
    · rw [if_neg hfit] at h
      rcases List.mem_append.mp h with h1 | h2
      · cases buf with
        | nil => simp at h1
        | cons b bs =>
          simp at h1
          rw [h1.1]
          simp
      · exact ih _ _ _ g flb h2

/-- A word longer than the content width always ends up alone in its
group: invariant form over the loop state. -/
theorem wrapLoop_overlong (cw : Int) :
    ∀ (ws buf : List String) (cur : Int) (fl : Bool),
      0 ≤ cur →
      (∀ u ∈ buf, (u.length : Int) ≤ cur) →
      (∀ u ∈ buf, cw < (u.length : Int) → buf = [u]) →
      ∀ (g : List String) (flb : Bool), (g, flb) ∈ wrapLoop cw ws buf cur fl →
        ∀ w ∈ g, cw < (w.length : Int) → g = [w] := by
  intro ws
  induction ws with
  | nil =>
    intro buf cur fl hcur hlen hover g flb h w hw hcw
    unfold wrapLoop at h
    cases buf with
    | nil => simp at h
    | cons b bs =>
      simp at h
      rw [h.1] at hw ⊢
      exact h.1 ▸ hover w (h.1 ▸ hw) hcw
  | cons w0 ws ih =>
    intro buf cur fl hcur hlen hover g flb h w hw hcw
    unfold wrapLoop at h
    dsimp only at h
    have hsp0 : (0 : Int) ≤ (if buf.isEmpty then (0 : Int) else 1) := by split_ifs <;> omega
    have hsp1 : (if buf.isEmpty then (0 : Int) else 1) ≤ 1 := by split_ifs <;> omega
    by_cases hfit : cur + (w0.length : Int) + (if buf.isEmpty then (0 : Int) else 1) ≤ cw
    · rw [if_pos hfit] at h
      refine ih (buf ++ [w0]) (cur + (w0.length : Int) + (if buf.isEmpty then (0 : Int) else 1))
        fl ?_ ?_ ?_ g flb h w hw hcw
      · have := Int.natCast_nonneg w0.length
        omega
      · intro u hu
        rcases List.mem_append.mp hu with hu1 | hu2
        · have := hlen u hu1
          have := Int.natCast_nonneg w0.length
          omega
        · have : u = w0 := by simpa using hu2
          subst this
          omega
      · intro u hu hcwu
        exfalso
        rcases List.mem_append.mp hu with hu1 | hu2
        · have hb := hover u hu1 hcwu
          have hl := hlen u hu1
          have := Int.natCast_nonneg w0.length
          omega
        · have : u = w0 := by simpa using hu2
          subst this
          omega
    · rw [if_neg hfit] at h
      rcases List.mem_append.mp h with h1 | h2
      · cases buf with
        | nil => simp at h1
        | cons b bs =>
          simp at h1
          rw [h1.1] at hw ⊢
          exact h1.1 ▸ hover w (h1.1 ▸ hw) hcw
      · refine ih [w0] (w0.length : Int) false (Int.natCast_nonneg _) ?_ ?_ g flb h2 w hw hcw
        · intro u hu
          have : u = w0 := by simpa using hu
          subst this
          omega
        · intro u hu hcwu
          have : u = w0 := by simpa using hu
          subst this
          rfl

end ChatWindow

/-- Claim C7: in the line layout's word-packing loop (for any content
width and any message text), (a) the emitted line groups concatenate
back to exactly the whitespace-delimited words of the text, so no word
is ever split across layout lines; (b) no emitted group is empty; and a
word longer than the content width occupies a group of its own whose
rendered line text is the word unmodified; (c) the rendered texts of a
message's layout lines in `linesOfMessage` are precisely the joined
groups of this loop (at content width 80 − label − 1) followed by the
blank separator line. -/
theorem wrap_word_integrity (cw : Int) (text : String) :
    (((ChatWindow.wrapLoop cw (strFields text) [] 0 true).map Prod.fst).flatten
        = strFields text) ∧
    (∀ (g : List String) (fl : Bool), (g, fl) ∈ ChatWindow.wrapLoop cw (strFields text) [] 0 true →
      g ≠ [] ∧ ∀ w ∈ g, cw < (w.length : Int) →
        g = [w] ∧ ChatWindow.joinSpace g = w) ∧
    (∀ (msgIdx : Nat) (msg : Message) (isSel : Bool),
      (ChatWindow.linesOfMessage msgIdx msg isSel).map (fun li => li.Text) =
        ((ChatWindow.wrapLoop (80 - ((msg.Sender ++ ": ").length : Int) - 1)
            (strFields msg.Text) [] 0 true).map
          (fun g => ChatWindow.joinSpace g.1)) ++ [""]) := by
  refine ⟨ChatWindow.wrapLoop_flatten cw (strFields text) [] 0 true,
    fun g fl h => ⟨ChatWindow.wrapLoop_ne_nil cw _ _ _ _ g fl h, fun w hw hcw => ?_⟩,
    fun msgIdx msg isSel => ?_⟩
  · have hg : g = [w] :=
      ChatWindow.wrapLoop_overlong cw (strFields text) [] 0 true le_rfl
        (by intro u hu; simp at hu) (by intro u hu; simp at hu) g fl h w hw hcw
    exact ⟨hg, by rw [hg]; rfl⟩
  · simp [ChatWindow.linesOfMessage, List.map_map, Function.comp]

/-- Witness for the C7 theorem at a concrete wrap: content width 5,
text "hi verylongword yo"; the over-long word sits alone on its line,
unmodified. -/
theorem wrap_word_integrity_witness :
    (["verylongword"] : List String) ≠ [] ∧
    ((["verylongword"] : List String) = ["verylongword"] ∧
      ChatWindow.joinSpace ["verylongword"] = "verylongword") := by
  have h := (wrap_word_integrity 5 "hi verylongword yo").2.1 ["verylongword"] false (by decide)
  exact ⟨h.1, h.2 "verylongword" (by decide) (by decide)⟩

namespace DirectMessages

/-- With limit 5 (the `GetChats` default) the truncation is exactly
`take 5`. -/
theorem truncateConvs_five (l : List Conversation) :
    truncateConvs 5 l = l.take 5 := by
  unfold truncateConvs
  split_ifs with h
  · rfl
  · have hlen : l.length ≤ 5 := by omega
    rw [List.take_of_length_le hlen]

/-- Unfolding of the assignment loop when the conversation already has
an internal ID. -/
theorem assignChats_cons_some (st : DMState) (conv : Conversation)
    (rest : List Conversation) (i : Nat)
    (hl : lookupMap st.internalIDMap conv.ID = some i) :
    assignChats st (conv :: rest) =
      ((assignChats st rest).1, chatOfConv i conv :: (assignChats st rest).2) := by
  simp only [assignChats]
  rw [hl]

/-- Unfolding of the assignment loop when the conversation gets a fresh
internal ID. -/
theorem assignChats_cons_none (st : DMState) (conv : Conversation)
    (rest : List Conversation)
    (hl : lookupMap st.internalIDMap conv.ID = none) :
    assignChats st (conv :: rest) =
      ((assignChats ⟨(conv.ID, st.nextInternalID) :: st.internalIDMap,
          st.nextInternalID + 1⟩ rest).1,
        chatOfConv st.nextInternalID conv ::
          (assignChats ⟨(conv.ID, st.nextInternalID) :: st.internalIDMap,
            st.nextInternalID + 1⟩ rest).2) := by
  simp only [assignChats]
  rw [hl]

/-- Every chat returned by the assignment loop stems from one of the
input conversations (same remote ID). -/
theorem assignChats_id_of_mem :
    ∀ (l : List Conversation) (st : DMState) (c : Chat),
      c ∈ (assignChats st l).2 → ∃ conv ∈ l, c.ID = conv.ID := by
  intro l
  induction l with
  | nil => intro st c h; simp [assignChats] at h
  | cons conv rest ih =>
    intro st c h
    cases hl : lookupMap st.internalIDMap conv.ID with
    | some i =>
      rw [assignChats_cons_some st conv rest i hl] at h
      dsimp only at h
      rcases List.mem_cons.mp h with h1 | h2
      · exact ⟨conv, List.mem_cons_self .., h1 ▸ rfl⟩
      · obtain ⟨conv2, hc2, hid⟩ := ih st c h2
        exact ⟨conv2, List.mem_cons_of_mem _ hc2, hid⟩
    | none =>
      rw [assignChats_cons_none st conv rest hl] at h
      dsimp only at h
      rcases List.mem_cons.mp h with h1 | h2
      · exact ⟨conv, List.mem_cons_self .., h1 ▸ rfl⟩
      · obtain ⟨conv2, hc2, hid⟩ := ih _ c h2
        exact ⟨conv2, List.mem_cons_of_mem _ hc2, hid⟩

end DirectMessages

/-- Claim C10: every chat the search operation returns stems from one of
the first five conversations of the activity-sorted listing (the search
re-lists through `GetChats`, whose limit is 5), and those first five
dominate every later conversation in last-activity order — so a
conversation matching the query but outside the five most recently
active ones is never returned. -/
theorem search_scans_top5 (st : DMState) (convs : List Conversation) (query : String)
    (c : Chat) (hc : c ∈ (DirectMessages.SearchChats st convs query).2) :
    (∃ conv ∈ (DirectMessages.sortByActivity convs).take 5, c.ID = conv.ID) ∧
    (∀ x ∈ (DirectMessages.sortByActivity convs).take 5,
      ∀ y ∈ (DirectMessages.sortByActivity convs).drop 5,
        y.LastActivityAt ≤ x.LastActivityAt) := by
  constructor
  · unfold DirectMessages.SearchChats at hc
    rcases hg : DirectMessages.GetChats st convs with ⟨st1, chats⟩
    rw [hg] at hc
    dsimp only at hc
    have hcm : c ∈ chats := List.mem_of_mem_filter hc
    have hchats : chats =
        (DirectMessages.assignChats st ((DirectMessages.sortByActivity convs).take 5)).2 := by
      have := congrArg Prod.snd hg
      dsimp only at this
      rw [← this]
      show (DirectMessages.GetChatsWithLimit st convs 5).2 = _
      unfold DirectMessages.GetChatsWithLimit
      rw [DirectMessages.truncateConvs_five]
    rw [hchats] at hcm
    exact DirectMessages.assignChats_id_of_mem _ st c hcm
  · intro x hx y hy
    have hs : List.Pairwise DirectMessages.activityGE (DirectMessages.sortByActivity convs) :=
      List.sorted_insertionSort _ _
    have hsplit := List.pairwise_append.mp
      (by rw [List.take_append_drop]; exact hs : List.Pairwise DirectMessages.activityGE
        ((DirectMessages.sortByActivity convs).take 5 ++
          (DirectMessages.sortByActivity convs).drop 5))
    exact hsplit.2.2 x hx y hy

/-- Witness for the C10 theorem: searching "al" over two conversations
returns the chat of conversation "b", which is among the top five. -/
theorem search_scans_top5_witness :
    (∃ conv ∈ (DirectMessages.sortByActivity
        [⟨"a", "Alpha", [], false, 10, []⟩,
         ⟨"b", "Beta", [⟨5, "alice", "A"⟩], false, 20, []⟩]).take 5,
      (⟨"b", 100000, "Beta", [⟨5, "alice", "A"⟩], "", 20, 0, false⟩ : Chat).ID = conv.ID) ∧
    (∀ x ∈ (DirectMessages.sortByActivity
        [⟨"a", "Alpha", [], false, 10, []⟩,
         ⟨"b", "Beta", [⟨5, "alice", "A"⟩], false, 20, []⟩]).take 5,
      ∀ y ∈ (DirectMessages.sortByActivity
        [⟨"a", "Alpha", [], false, 10, []⟩,
         ⟨"b", "Beta", [⟨5, "alice", "A"⟩], false, 20, []⟩]).drop 5,
        y.LastActivityAt ≤ x.LastActivityAt) :=
  search_scans_top5 initialDMState
    [⟨"a", "Alpha", [], false, 10, []⟩, ⟨"b", "Beta", [⟨5, "alice", "A"⟩], false, 20, []⟩]
    "al" ⟨"b", 100000, "Beta", [⟨5, "alice", "A"⟩], "", 20, 0, false⟩ (by decide)

namespace DirectMessages

theorem lookupMap_cons_self (m : List (String × Nat)) (k : String) (v : Nat) :
    lookupMap ((k, v) :: m) k = some v := by
  simp [lookupMap]

theorem lookupMap_cons_ne (m : List (String × Nat)) (k k2 : String) (v : Nat)
    (h : k2 ≠ k) : lookupMap ((k2, v) :: m) k = lookupMap m k := by
  unfold lookupMap
  rw [List.find?_cons_of_neg _ (by simpa using h)]

theorem lookupMap_mem (m : List (String × Nat)) (k : String) (i : Nat)
    (h : lookupMap m k = some i) : (k, i) ∈ m := by
  unfold lookupMap at h
  cases hf : m.find? (fun p => p.1 == k) with
  | none => rw [hf] at h; simp at h
  | some p =>
    rw [hf] at h
    simp at h
    have hp : (p.1 == k) = true := (List.find?_eq_some.mp hf).1
    have hmem := List.mem_of_find?_eq_some hf
    have hpk : p = (k, i) := by
      cases p
      simp at hp h
      simp [hp, h]
    rw [hpk] at hmem
    exact hmem

/-- Assignments already present survive the assignment loop. -/
theorem assignChats_lookup_mono :
    ∀ (l : List Conversation) (st : DMState) (k : String) (i : Nat),
      lookupMap st.internalIDMap k = some i →
      lookupMap ((assignChats st l).1).internalIDMap k = some i := by
  intro l
  induction l with
  | nil => intro st k i h; exact h
  | cons conv rest ih =>
    intro st k i h
    cases hl : lookupMap st.internalIDMap conv.ID with
    | some j =>
      rw [assignChats_cons_some st conv rest j hl]
      dsimp only
      exact ih st k i h
    | none =>
      rw [assignChats_cons_none st conv rest hl]
      dsimp only
      refine ih _ k i ?_
      have hne : conv.ID ≠ k := by
        intro he
        rw [he] at hl
        rw [hl] at h
        exact Option.noConfusion h
      show lookupMap ((conv.ID, st.nextInternalID) :: st.internalIDMap) k = some i
      rw [lookupMap_cons_ne _ _ _ _ hne]
      exact h

/-- The counter never decreases across the assignment loop. -/
theorem assignChats_next_mono :
    ∀ (l : List Conversation) (st : DMState),
      st.nextInternalID ≤ ((assignChats st l).1).nextInternalID := by
  intro l
  induction l with
  | nil => intro st; exact le_rfl
  | cons conv rest ih =>
    intro st
    cases hl : lookupMap st.internalIDMap conv.ID with
    | some j =>
      rw [assignChats_cons_some st conv rest j hl]
      dsimp only
      exact ih st
    | none =>
      rw [assignChats_cons_none st conv rest hl]
      dsimp only
      exact le_trans (Nat.le_succ _)
        (ih ⟨(conv.ID, st.nextInternalID) :: st.internalIDMap, st.nextInternalID + 1⟩)

/-- A key assigned during the loop receives an internal ID at least the
counter value at entry. -/
theorem assignChats_new_ge :
    ∀ (l : List Conversation) (st : DMState) (k : String) (i : Nat),
      lookupMap st.internalIDMap k = none →
      lookupMap ((assignChats st l).1).internalIDMap k = some i →
      st.nextInternalID ≤ i := by
  intro l
  induction l with
  | nil =>
    intro st k i h0 h1
    have h1' : lookupMap st.internalIDMap k = some i := h1
    rw [h0] at h1'
    exact Option.noConfusion h1'
  | cons conv rest ih =>
    intro st k i h0 h1
    cases hl : lookupMap st.internalIDMap conv.ID with
    | some j =>
      rw [assignChats_cons_some st conv rest j hl] at h1
      dsimp only at h1
      exact ih st k i h0 h1
    | none =>
      rw [assignChats_cons_none st conv rest hl] at h1
      dsimp only at h1
      by_cases hk : conv.ID = k
      · subst hk
        have hpersist := assignChats_lookup_mono rest
          ⟨(conv.ID, st.nextInternalID) :: st.internalIDMap, st.nextInternalID + 1⟩
          conv.ID st.nextInternalID (lookupMap_cons_self _ _ _)
        have h1' : some st.nextInternalID = some i := by
          rw [← hpersist]
          exact h1
        exact le_of_eq (Option.some_inj.mp h1')
      · have h0' : lookupMap ((conv.ID, st.nextInternalID) :: st.internalIDMap) k = none := by
          rw [lookupMap_cons_ne _ _ _ _ hk]
          exact h0
        exact le_trans (Nat.le_succ _) (ih _ k i h0' h1)

/-- The assignment loop preserves well-formedness of the ID state. -/
theorem assignChats_WF :
    ∀ (l : List Conversation) (st : DMState), WF st → WF ((assignChats st l).1) := by
  intro l
  induction l with
  | nil => intro st h; exact h
  | cons conv rest ih =>
    intro st h
    cases hl : lookupMap st.internalIDMap conv.ID with
    | some j =>
      rw [assignChats_cons_some st conv rest j hl]
      dsimp only
      exact ih st h
    | none =>
      rw [assignChats_cons_none st conv rest hl]
      dsimp only
      have hnone : st.internalIDMap.find? (fun p => p.1 == conv.ID) = none := by
        unfold lookupMap at hl
        cases hf : st.internalIDMap.find? (fun p => p.1 == conv.ID) with
        | none => rfl
        | some p => rw [hf] at hl; simp at hl
      refine ih _ ⟨?_, ?_, ?_⟩
      · refine List.Nodup.cons ?_ h.1
        intro hmem
        rw [List.mem_map] at hmem
        obtain ⟨p, hp, hpk⟩ := hmem
        have hne := List.find?_eq_none.mp hnone p hp
        simp at hne
        exact hne hpk
      · refine List.Nodup.cons ?_ h.2.1
        intro hmem
        rw [List.mem_map] at hmem
        obtain ⟨p, hp, hpk⟩ := hmem
        have := h.2.2 p hp
        omega
      · intro p hp
        rcases List.mem_cons.mp hp with h1 | h2
        · rw [h1]
          exact Nat.lt_succ_self _
        · exact Nat.lt_succ_of_lt (h.2.2 p h2)

/-- Every chat returned by the assignment loop carries exactly the
internal ID the post-state map assigns to its remote ID. -/
theorem assignChats_chats_lookup :
    ∀ (l : List Conversation) (st : DMState) (c : Chat),
      c ∈ (assignChats st l).2 →
      lookupMap ((assignChats st l).1).internalIDMap c.ID = some c.InternalID := by
  intro l
  induction l with
  | nil => intro st c h; simp [assignChats] at h
  | cons conv rest ih =>
    intro st c h
    cases hl : lookupMap st.internalIDMap conv.ID with
    | some i =>
      rw [assignChats_cons_some st conv rest i hl] at h ⊢
      dsimp only at h ⊢
      rcases List.mem_cons.mp h with h1 | h2
      · subst h1
        show lookupMap ((assignChats st rest).1).internalIDMap conv.ID = some i
        exact assignChats_lookup_mono rest st conv.ID i hl
      · exact ih st c h2
    | none =>
      rw [assignChats_cons_none st conv rest hl] at h ⊢
      dsimp only at h ⊢
      rcases List.mem_cons.mp h with h1 | h2
      · subst h1
        show lookupMap ((assignChats ⟨(conv.ID, st.nextInternalID) :: st.internalIDMap,
            st.nextInternalID + 1⟩ rest).1).internalIDMap conv.ID = some st.nextInternalID
        exact assignChats_lookup_mono rest _ conv.ID st.nextInternalID
          (lookupMap_cons_self _ _ _)
      · exact ih _ c h2

/-- `runListings` distributes over request concatenation. -/
theorem runListings_append (reqs1 reqs2 : List (List Conversation × Int)) :
    ∀ st : DMState, runListings st (reqs1 ++ reqs2) =
      runListings (runListings st reqs1) reqs2 := by
  induction reqs1 with
  | nil => intro st; rfl
  | cons r rest ih =>
    intro st
    rcases r with ⟨convs, limit⟩
    show runListings (GetChatsWithLimit st convs limit).1 (rest ++ reqs2) = _
    rw [ih]
    rfl

/-- Assignments survive a whole run of listings. -/
theorem runListings_lookup_mono (reqs : List (List Conversation × Int)) :
    ∀ (st : DMState) (k : String) (i : Nat),
      lookupMap st.internalIDMap k = some i →
      lookupMap (runListings st reqs).internalIDMap k = some i := by
  induction reqs with
  | nil => intro st k i h; exact h
  | cons r rest ih =>
    intro st k i h
    rcases r with ⟨convs, limit⟩
    exact ih _ k i (assignChats_lookup_mono _ st k i h)

/-- The counter never decreases across a run of listings. -/
theorem runListings_next_mono (reqs : List (List Conversation × Int)) :
    ∀ st : DMState, st.nextInternalID ≤ (runListings st reqs).nextInternalID := by
  induction reqs with
  | nil => intro st; exact le_rfl
  | cons r rest ih =>
    intro st
    rcases r with ⟨convs, limit⟩
    exact le_trans (assignChats_next_mono _ st) (ih _)

/-- A run of listings preserves well-formedness. -/
theorem runListings_WF (reqs : List (List Conversation × Int)) :
    ∀ st : DMState, WF st → WF (runListings st reqs) := by
  induction reqs with
  | nil => intro st h; exact h
  | cons r rest ih =>
    intro st h
    rcases r with ⟨convs, limit⟩
    exact ih _ (assignChats_WF _ st h)

/-- A key assigned during a run receives an internal ID at least the
counter value at the start of the run. -/
theorem runListings_new_ge (reqs : List (List Conversation × Int)) :
    ∀ (st : DMState) (k : String) (i : Nat),
      lookupMap st.internalIDMap k = none →
      lookupMap (runListings st reqs).internalIDMap k = some i →
      st.nextInternalID ≤ i := by
  induction reqs with
  | nil =>
    intro st k i h0 h1
    have h1' : lookupMap st.internalIDMap k = some i := h1
    rw [h0] at h1'
    exact Option.noConfusion h1'
  | cons r rest ih =>
    intro st k i h0 h1
    rcases r with ⟨convs, limit⟩
    have h1' : lookupMap
        (runListings ((GetChatsWithLimit st convs limit).1) rest).internalIDMap k = some i := h1
    cases hmid : lookupMap ((GetChatsWithLimit st convs limit).1).internalIDMap k with
    | some j =>
      have hge := assignChats_new_ge _ st k j h0 hmid
      have hpersist := runListings_lookup_mono rest _ k j hmid
      rw [hpersist] at h1'
      have : j = i := Option.some_inj.mp h1'
      omega
    | none =>
      exact le_trans (assignChats_next_mono _ st) (ih _ k i hmid h1')

/-- The initial `DirectMessages` state is well-formed. -/
theorem initial_WF : WF initialDMState := by
  refine ⟨List.nodup_nil, List.nodup_nil, ?_⟩
  intro p hp
  simp [initialDMState] at hp

end DirectMessages

/-- Claim C8: within one run from the fresh state, (a) once a listing
returns a conversation under some internal ID, every later listing that
returns the same conversation (under any reordering or snapshot) returns
it under the same internal ID; (b) two remote IDs never share an
internal ID (an ID is never reused for a different conversation); (c)
internal IDs are assigned in strictly increasing order: an ID assigned
while another is already present is strictly larger. -/
theorem internalID_stability :
    (∀ (reqs1 reqs2 : List (List Conversation × Int)) (convs : List Conversation)
        (limit : Int) (convs2 : List Conversation) (limit2 : Int) (c c2 : Chat),
      c ∈ (DirectMessages.GetChatsWithLimit
            (DirectMessages.runListings initialDMState reqs1) convs limit).2 →
      c2 ∈ (DirectMessages.GetChatsWithLimit
            (DirectMessages.runListings initialDMState (reqs1 ++ (convs, limit) :: reqs2))
            convs2 limit2).2 →
      c2.ID = c.ID → c2.InternalID = c.InternalID) ∧
    (∀ (reqs : List (List Conversation × Int)) (r1 r2 : String) (i : Nat),
      lookupMap (DirectMessages.runListings initialDMState reqs).internalIDMap r1 = some i →
      lookupMap (DirectMessages.runListings initialDMState reqs).internalIDMap r2 = some i →
      r1 = r2) ∧
    (∀ (reqs1 reqs2 : List (List Conversation × Int)) (r1 r2 : String) (i1 i2 : Nat),
      lookupMap (DirectMessages.runListings initialDMState reqs1).internalIDMap r1 = some i1 →
      lookupMap (DirectMessages.runListings initialDMState reqs1).internalIDMap r2 = none →
      lookupMap (DirectMessages.runListings initialDMState (reqs1 ++ reqs2)).internalIDMap r2
        = some i2 →
      i1 < i2) := by
  refine ⟨?_, ?_, ?_⟩
  · intro reqs1 reqs2 convs limit convs2 limit2 c c2 hc hc2 hid
    have h1 := DirectMessages.assignChats_chats_lookup
      (DirectMessages.truncateConvs limit (DirectMessages.sortByActivity convs))
      (DirectMessages.runListings initialDMState reqs1) c hc
    have h2 := DirectMessages.assignChats_chats_lookup
      (DirectMessages.truncateConvs limit2 (DirectMessages.sortByActivity convs2))
      (DirectMessages.runListings initialDMState (reqs1 ++ (convs, limit) :: reqs2)) c2 hc2
    have hpersist1 : lookupMap
        (DirectMessages.runListings initialDMState
          (reqs1 ++ (convs, limit) :: reqs2)).internalIDMap c.ID = some c.InternalID := by
      have hrun : DirectMessages.runListings initialDMState (reqs1 ++ (convs, limit) :: reqs2) =
          DirectMessages.runListings
            ((DirectMessages.assignChats (DirectMessages.runListings initialDMState reqs1)
              (DirectMessages.truncateConvs limit (DirectMessages.sortByActivity convs))).1)
            reqs2 := by
        rw [DirectMessages.runListings_append]
        rfl
      rw [hrun]
      exact DirectMessages.runListings_lookup_mono reqs2 _ c.ID c.InternalID h1
    have hpersist2 := DirectMessages.assignChats_lookup_mono
      (DirectMessages.truncateConvs limit2 (DirectMessages.sortByActivity convs2))
      (DirectMessages.runListings initialDMState (reqs1 ++ (convs, limit) :: reqs2))
      c.ID c.InternalID hpersist1
    rw [hid] at h2
    rw [h2] at hpersist2
    exact Option.some_inj.mp hpersist2
  · intro reqs r1 r2 i h1 h2
    have hwf := DirectMessages.runListings_WF reqs initialDMState DirectMessages.initial_WF
    have hm1 := DirectMessages.lookupMap_mem _ r1 i h1
    have hm2 := DirectMessages.lookupMap_mem _ r2 i h2
    have heq := List.inj_on_of_nodup_map hwf.2.1 hm1 hm2 rfl
    exact congrArg Prod.fst heq
  · intro reqs1 reqs2 r1 r2 i1 i2 h1 h0 h2
    have hwf := DirectMessages.runListings_WF reqs1 initialDMState DirectMessages.initial_WF
    have hb := hwf.2.2 (r1, i1) (DirectMessages.lookupMap_mem _ r1 i1 h1)
    rw [DirectMessages.runListings_append] at h2
    have hge := DirectMessages.runListings_new_ge reqs2 _ r2 i2 h0 h2
    exact lt_of_lt_of_le hb hge

/-- Witness for the C8 theorem: after a first listing assigns internal
ID 100000 to conversation "b", a second listing with reversed activity
order still returns "b" under 100000. -/
theorem internalID_stability_witness :
    (⟨"b", 100000, "Beta", [], "", 20, 0, false⟩ : Chat).InternalID =
      (⟨"b", 100000, "Beta", [], "", 20, 0, false⟩ : Chat).InternalID :=
  internalID_stability.1 [] [] [⟨"a", "Alpha", [], false, 10, []⟩, ⟨"b", "Beta", [], false, 20, []⟩]
    5 [⟨"a", "Alpha", [], false, 30, []⟩, ⟨"b", "Beta", [], false, 20, []⟩] 5
    ⟨"b", 100000, "Beta", [], "", 20, 0, false⟩ ⟨"b", 100000, "Beta", [], "", 20, 0, false⟩
    (by decide) (by decide) rfl

end GoGram
